import Mathlib

/-!
Verification of the TraderOptimizer backtesting core.

This file gives a shallow embedding, in Lean 4, of the simulator and
commission engine of the repository:

* `src/constant.py`   — the `POSITION`, `SIGNAL`, `TradeSide`, `AssetType`
  and `HoldingType` enumerations;
* `src/utils.py`      — `UtilsJson.get_merged_section` (the inheritance-chain
  branch used by the commission calculator) and `UtilsJson.deep_merge`;
* `src/commission.py` — `CommissionCalculator` (`_get_effective_fees`,
  `_determine_holding_type`, `_calculate_stocks_fees`,
  `calculate_commission_fees`);
* `src/backtester.py` — `Backtester` (`_reset_state`, `_get_trade_fees`,
  `run`, `_calculate_sharpe_ratio`).

Money, prices and rates are modelled as exact rationals (`ℚ`); Python's
`round(x, 2)` is modelled as decimal rounding half-to-even.  Configuration
documents are modelled by the inductive JSON-like type `JVal`.  Python
exceptions are modelled by `Except`; a float `NaN` outcome of the Sharpe
computation is modelled by a dedicated constructor.
-/

/-- Enumeration `POSITION` from `src/constant.py` (values 0, 1, 2). -/
inductive POSITION where
  | NOT_HELD
  | BUY
  | SELL
deriving DecidableEq, Repr

/-- Enumeration `SIGNAL` from `src/constant.py` (values 0..4). -/
inductive SIGNAL where
  | NO_ACTION
  | BUY_ENTRY
  | BUY_EXIT
  | SELL_ENTRY
  | SELL_EXIT
deriving DecidableEq, Repr

/-- Enumeration `TradeSide` from `src/constant.py` (values 0, 1, 2). -/
inductive TradeSide where
  | NOT_HELD
  | BUY
  | SELL
deriving DecidableEq, Repr

/-- The integer `.value` of a `TradeSide` member, as declared in
`src/constant.py` (`NOT_HELD = 0`, `BUY = 1`, `SELL = 2`). -/
def TradeSide.value : TradeSide → ℕ
  | .NOT_HELD => 0
  | .BUY => 1
  | .SELL => 2

/-- The `.name` of a `TradeSide` member (used for display in the breakdown). -/
def TradeSide.pyName : TradeSide → String
  | .NOT_HELD => "NOT_HELD"
  | .BUY => "BUY"
  | .SELL => "SELL"

/-- Enumeration `AssetType` from `src/constant.py` (string values). -/
inductive AssetType where
  | STOCKS
  | OPTIONS
  | CURRENCY
  | CRYPTO
deriving DecidableEq, Repr

/-- The string `.value` of an `AssetType` member. -/
def AssetType.value : AssetType → String
  | .STOCKS => "stocks"
  | .OPTIONS => "options"
  | .CURRENCY => "currency"
  | .CRYPTO => "crypto"

/-- Enumeration `HoldingType` from `src/constant.py`. -/
inductive HoldingType where
  | DELIVERY
  | INTRADAY
  | UNKNOWN
deriving DecidableEq, Repr

/-- The `.name` of a `HoldingType` member (used for display). -/
def HoldingType.pyName : HoldingType → String
  | .DELIVERY => "DELIVERY"
  | .INTRADAY => "INTRADAY"
  | .UNKNOWN => "UNKNOWN"

/-! ## JSON-like configuration values

The master fee schedule is a nested Python dictionary with string keys whose
leaves are numbers or strings.  `JVal` models such a value; a dictionary is
an association list (Python dictionaries preserve insertion order and have
unique keys). -/

/-- A JSON-like configuration value: a number, a string, or an object. -/
inductive JVal where
  | num (q : ℚ)
  | str (s : String)
  | obj (fields : List (String × JVal))

/-- A JSON-like dictionary with string keys. -/
abbrev JDict := List (String × JVal)

/-- Dictionary lookup, `d.get(k)` / `d[k]` on a Python dict. -/
def jget (d : JDict) (k : String) : Option JVal :=
  (d.find? (fun p => p.1 == k)).map Prod.snd

/-- Lookup of a sub-dictionary with default `{}`: models `d.get(k, {})` for
keys whose values are dictionaries. -/
def jgetObj (d : JDict) (k : String) : JDict :=
  match jget d k with
  | some (JVal.obj fields) => fields
  | _ => []

/-- Lookup of a numeric entry with default `0.0`: models `d.get(k, 0.0)` on
the numeric fee-schedule entries. -/
def dGetNum (d : JDict) (k : String) : ℚ :=
  match jget d k with
  | some (JVal.num q) => q
  | _ => 0

/-- Lookup of an optional numeric entry: models `d.get(k)` returning `None`
when the key is absent (used for the brokerage cap). -/
def dGetNumOpt (d : JDict) (k : String) : Option ℚ :=
  match jget d k with
  | some (JVal.num q) => some q
  | _ => none

/-- Python truthiness of an optional value: `None`, `0`, `""` and `{}` are
falsy.  Models the `config.get(key)` tests in `_get_effective_fees`. -/
def jtruthy : Option JVal → Bool
  | none => false
  | some (JVal.num q) => !(q == 0)
  | some (JVal.str s) => !(s == "")
  | some (JVal.obj fields) => !fields.isEmpty

/-- Setting one key of a dictionary, `d[k] = v`: replaces the value in place
if the key exists (keeping its position), else appends the new key. -/
def dictSet (d : JDict) (k : String) (v : JVal) : JDict :=
  if d.any (fun p => p.1 == k) then
    d.map (fun p => if p.1 == k then (k, v) else p)
  else
    d ++ [(k, v)]

/-- Shallow dictionary update, Python's `base.update(override)`. -/
def dictUpdate (base override : JDict) : JDict :=
  override.foldl (fun acc p => dictSet acc p.1 p.2) base

/-- Deleting a key, Python's `del d[k]` (a no-op here when absent; the source
only deletes keys it has just observed to be present). -/
def dictDel (d : JDict) (k : String) : JDict :=
  d.filter (fun p => !(p.1 == k))

mutual

/-- The merge of one override value onto one base value in
`UtilsJson.deep_merge`: two dictionaries are merged recursively, any other
combination is overridden by the override value. -/
def deepMergeVal : JVal → JVal → JVal
  | JVal.obj baseSub, JVal.obj ovSub => JVal.obj (deep_merge baseSub ovSub)
  | _, v => v

/-- Recursive dictionary merge, `UtilsJson.deep_merge` from `src/utils.py`:
iterates over the override's entries, overwriting the base's values, except
that two nested dictionaries are merged recursively. -/
def deep_merge : JDict → JDict → JDict
  | base, [] => base
  | base, (k, v) :: rest =>
    let newVal :=
      match jget base k with
      | some bv => deepMergeVal bv v
      | none => v
    deep_merge (dictSet base k newVal) rest

end

/-! ## Fee-schedule inheritance resolution (`UtilsJson.get_merged_section`)

The master schedule maps broker identifiers to configuration sections; a
section may name a parent section under an identifier key such as
`"inherits_from"`.  The source walks the parent chain with a `while` loop,
guarded by a maximum depth of 50 and an explicit loop check, then merges the
sections base-first with shallow `dict.update` calls. -/

/-- The top-level schedule: broker identifier to configuration section. -/
abbrev Schedule := List (String × JDict)

/-- Top-level schedule lookup (`config_data.get(current_id)`). -/
def schedGet (config : Schedule) (k : String) : Option JDict :=
  (config.find? (fun p => p.1 == k)).map Prod.snd

/-- The `ValueError`s that `UtilsJson.get_merged_section` can raise:
unknown derived key, inheritance chain deeper than 50, inheritance loop, or
a named parent that is absent from the configuration. -/
inductive MergeErr where
  | derivedNotFound (derived : String)
  | maxDepthExceeded
  | loopDetected (derived : String)
  | parentNotFound (parent current : String)
deriving DecidableEq, Repr

/-- Whether the text of the `ValueError` contains the substring
`"not found"` — the test `_get_effective_fees` applies to a resolution
error before re-wrapping it as a broker-not-found error.  Of the four
messages in the source, exactly the derived-key and parent-key messages
contain that substring. -/
def MergeErr.containsNotFound : MergeErr → Bool
  | .derivedNotFound _ => true
  | .parentNotFound _ _ => true
  | _ => false

/-- The `while True` loop of `get_merged_section` that builds the
inheritance chain.  `chain` always ends with `current`.  In the source,
`depth` counts iterations upwards and the iteration that would take it past
`max_depth = 50` raises; here `fuel` counts the remaining allowed
iterations downwards from 50, so `fuel = 50 - depth` and running out of
fuel is exactly the over-depth `ValueError`.  An iteration fails when
`current` already occurs earlier in the chain, stops when the current
section names no parent, fails when the named parent is not a section of
the configuration, and otherwise steps to the parent.  A parent value that
is not a string is never a key of the configuration and is reported as a
missing parent. -/
def inherit_chain (config : Schedule) (identifier : String) :
    ℕ → String → List String → Except MergeErr (List String)
  | 0, _, _ => Except.error MergeErr.maxDepthExceeded
  | fuel + 1, current, chain =>
    let currentSection := (schedGet config current).getD []
    if current ∈ chain.dropLast then Except.error (MergeErr.loopDetected current)
    else
      match jget currentSection identifier with
      | none => Except.ok chain
      | some (JVal.str parent) =>
        if (schedGet config parent).isSome then
          inherit_chain config identifier fuel parent (chain ++ [parent])
        else Except.error (MergeErr.parentNotFound parent current)
      | some _ => Except.error (MergeErr.parentNotFound "" current)

/-- `UtilsJson.get_merged_section` from `src/utils.py`, specialised to the
inheritance-chain mode (`base_key_id = None`, `base_key_identifier` given),
which is the only mode the commission calculator uses.  Returns the merged
section, or the `ValueError` the source raises. -/
def get_merged_section (config : Schedule) (derived identifier : String) :
    Except MergeErr JDict :=
  if (schedGet config derived).isNone then
    Except.error (MergeErr.derivedNotFound derived)
  else
    match inherit_chain config identifier 50 derived [derived] with
    | Except.error e => Except.error e
    | Except.ok chain =>
      let mergeOrder := chain.reverse
      let merged := mergeOrder.foldl
        (fun acc keyId => dictUpdate acc ((schedGet config keyId).getD [])) []
      Except.ok (dictDel merged identifier)

/-! ## Decimal rounding

Python's `round(x, 2)` rounds to the nearest multiple of 1/100, ties to
even.  The source applies it to every entry of the fee breakdown. -/

/-- Rounding a rational to the nearest integer, ties to even. -/
def round_half_even (q : ℚ) : ℤ :=
  let f := ⌊q⌋
  let r := q - f
  if r < 1/2 then f
  else if 1/2 < r then f + 1
  else if 2 ∣ f then f else f + 1

/-- Python's `round(x, 2)`: decimal rounding to 2 places, ties to even. -/
def round2 (q : ℚ) : ℚ := (round_half_even (q * 100) : ℚ) / 100

/-! ## Stocks fee computation (`CommissionCalculator._calculate_stocks_fees`) -/

/-- The 7 numeric quantities computed by the body of
`_calculate_stocks_fees` (before any display rounding): the capped
brokerage, the exchange transaction charges, the SEBI turnover fee, the
stamp duty, the GST, the STT and their total. -/
structure StockFeeComponents where
  brokerage : ℚ
  etc_charges : ℚ
  sebi_fee : ℚ
  stamp_duty : ℚ
  gst_tax : ℚ
  stt_tax : ℚ
  total_fees : ℚ
deriving DecidableEq, Repr

/-- The computation of `_calculate_stocks_fees` in `src/commission.py`
(lines building the local variables up to `total_fees`), with exact
arithmetic.  Note the brokerage keys: the source builds them with
`f"rate_{trade_side.value}"` and `TradeSide` is an integer enum, so the
keys looked up are `rate_1`/`const_1`/`cap_1` for BUY and
`rate_2`/`const_2`/`cap_2` for SELL. -/
def stocks_fee_components (principal_value : ℚ) (trade_side : TradeSide)
    (holding_type : HoldingType) (rates : JDict) : StockFeeComponents :=
  let broker_rates := jgetObj rates "broker"
  let regulatory_rates := jgetObj rates "regulatory"
  let rate_key := "rate_" ++ Nat.repr trade_side.value
  let const_key := "const_" ++ Nat.repr trade_side.value
  let cap_key := "cap_" ++ Nat.repr trade_side.value
  let percentage_brokerage := principal_value * dGetNum broker_rates rate_key
  let constant_fee := dGetNum broker_rates const_key
  let brokerage := max percentage_brokerage constant_fee
  let brokerage :=
    match dGetNumOpt broker_rates cap_key with
    | some brokerage_cap => if brokerage_cap < brokerage then brokerage_cap else brokerage
    | none => brokerage
  let etc_charges := principal_value * dGetNum regulatory_rates "etc_rate"
  let sebi_fee := principal_value * dGetNum regulatory_rates "sebi_rate"
  let stamp_duty :=
    if trade_side = TradeSide.BUY then
      principal_value * dGetNum regulatory_rates "stamp_duty_rate"
    else 0
  let gst_base := brokerage + etc_charges + sebi_fee
  let gst_tax := gst_base * dGetNum regulatory_rates "gst_rate"
  let stt_tax :=
    if holding_type = HoldingType.DELIVERY ∧ trade_side = TradeSide.SELL then
      principal_value * dGetNum regulatory_rates "stt_delivery"
    else if holding_type = HoldingType.INTRADAY then
      principal_value * dGetNum regulatory_rates "stt_intraday"
    else 0
  let total_fees := brokerage + etc_charges + sebi_fee + stamp_duty + gst_tax + stt_tax
  ⟨brokerage, etc_charges, sebi_fee, stamp_duty, gst_tax, stt_tax, total_fees⟩

/-- The dictionary `_calculate_stocks_fees` returns: display strings plus
every numeric component rounded to 2 decimal places with `round(x, 2)` —
including the total, which is what `Backtester._get_trade_fees` later reads
back. -/
structure FeesBreakdown where
  asset_type : String
  trade_side : String
  holding_type : String
  principal_value : ℚ
  brokerage : ℚ
  etc_charges : ℚ
  sebi_fee : ℚ
  stamp_duty : ℚ
  gst_tax : ℚ
  stt_tax : ℚ
  total : ℚ
deriving DecidableEq, Repr

/-- `CommissionCalculator._calculate_stocks_fees` from `src/commission.py`:
computes the components and returns the rounded breakdown dictionary. -/
def _calculate_stocks_fees (principal_value : ℚ) (trade_side : TradeSide)
    (holding_type : HoldingType) (rates : JDict) : FeesBreakdown :=
  let c := stocks_fee_components principal_value trade_side holding_type rates
  { asset_type := "Stocks"
    trade_side := trade_side.pyName
    holding_type := holding_type.pyName
    principal_value := round2 principal_value
    brokerage := round2 c.brokerage
    etc_charges := round2 c.etc_charges
    sebi_fee := round2 c.sebi_fee
    stamp_duty := round2 c.stamp_duty
    gst_tax := round2 c.gst_tax
    stt_tax := round2 c.stt_tax
    total := round2 c.total_fees }

/-! ## Holding-type classification (`CommissionCalculator._determine_holding_type`)

The source parses the two timestamps with `datetime.fromisoformat` and
compares the parsed datetimes.  The embedding models the extended ISO-8601
format: `YYYY-MM-DD`, optionally followed by a single separator character
and a time of day `HH[:MM[:SS[.f..ffffff]]]`, optionally followed by a UTC
offset `Z`, `z` or `±HH:MM` — the forms `fromisoformat` accepts on the
Python versions the repository requires (basic compact forms without
separators are outside the modelled subset).  All fields are range
validated as the `datetime` constructor does.  A parsed value carries its
UTC offset when one was given ("aware"); comparison and `timedelta`
subtraction of two naive or two aware datetimes are modelled through the
count of microseconds of the UTC instant since the proleptic-Gregorian
epoch, and comparing a naive with an aware datetime raises an uncaught
`TypeError`, exactly as `datetime` comparison does. -/

/-- A parsed `datetime.datetime` value: wall-clock fields plus the UTC
offset in seconds when the timestamp carried one (`tzinfo`/`utcoffset`). -/
structure PyDateTime where
  year : ℕ
  month : ℕ
  day : ℕ
  hour : ℕ
  minute : ℕ
  second : ℕ
  microsecond : ℕ
  tzoffset : Option ℤ
deriving DecidableEq, Repr

/-- Whether a year is a Gregorian leap year. -/
def isLeapYear (y : ℕ) : Bool :=
  y % 4 == 0 && (y % 100 != 0 || y % 400 == 0)

/-- Number of days in a month of a year. -/
def daysInMonth (y m : ℕ) : ℕ :=
  if m = 2 then (if isLeapYear y then 29 else 28)
  else if m = 4 ∨ m = 6 ∨ m = 9 ∨ m = 11 then 30
  else 31

/-- Number of days in the months of year `y` strictly before month `m`. -/
def daysBeforeMonth (y m : ℕ) : ℕ :=
  ((List.range m).filter (fun k => 1 ≤ k)).foldl (fun acc k => acc + daysInMonth y k) 0

/-- Proleptic-Gregorian ordinal of a date (day 1 is January 1 of year 1),
the standard `datetime.toordinal` formula. -/
def toOrdinal (y m d : ℕ) : ℤ :=
  365 * ((y : ℤ) - 1) + ((y : ℤ) - 1) / 4 - ((y : ℤ) - 1) / 100 + ((y : ℤ) - 1) / 400
    + (daysBeforeMonth y m : ℤ) + (d : ℤ)

/-- Microseconds in one day. -/
def microsPerDay : ℤ := 86400000000

/-- The wall-clock reading of a datetime as microseconds since the epoch of
ordinal 0, ignoring any UTC offset. -/
def toMicros (dt : PyDateTime) : ℤ :=
  toOrdinal dt.year dt.month dt.day * microsPerDay
    + ((dt.hour * 3600 + dt.minute * 60 + dt.second : ℕ) : ℤ) * 1000000
    + (dt.microsecond : ℤ)

/-- The UTC instant of a datetime as microseconds since the epoch of
ordinal 0 (the wall clock minus the UTC offset, 0 for naive values);
chronological order and `timedelta` subtraction of two valid datetimes of
the same awareness coincide with integer order and subtraction of this
quantity. -/
def instantMicros (dt : PyDateTime) : ℤ :=
  toMicros dt - dt.tzoffset.getD 0 * 1000000

/-- The calendar date of a datetime (`datetime.date()`, the wall-clock
date), for the same-calendar-date test. -/
def dateTriple (dt : PyDateTime) : ℕ × ℕ × ℕ := (dt.year, dt.month, dt.day)

/-- Reads exactly `n` decimal digits from the front of a character list,
accumulating their value. -/
def readDigits : ℕ → ℕ → List Char → Option (ℕ × List Char)
  | 0, acc, cs => some (acc, cs)
  | n + 1, acc, c :: cs =>
    if c.isDigit then readDigits n (acc * 10 + (c.toNat - 48)) cs else none
  | _ + 1, _, [] => none

/-- Reads a fractional-seconds part: 1 to 6 leading digits, scaled to
microseconds, returning the unconsumed rest (where a UTC offset may
follow). -/
def readFraction (cs : List Char) : Option (ℕ × List Char) :=
  let ds := cs.takeWhile Char.isDigit
  if ds.length < 1 ∨ 6 < ds.length then none
  else some ((ds.foldl (fun acc c => acc * 10 + (c.toNat - 48)) 0) * 10 ^ (6 - ds.length),
    cs.drop ds.length)

/-- Reads the optional UTC-offset suffix, which must end the string: empty
for a naive value, `Z`/`z` for UTC, or `±HH:MM` for a fixed offset (the
`datetime.timezone` range check keeps each component in range), returning
the offset in seconds. -/
def readTz : List Char → Option (Option ℤ)
  | [] => some none
  | ['Z'] => some (some 0)
  | ['z'] => some (some 0)
  | c :: cs =>
    if c = '+' ∨ c = '-' then
      match readDigits 2 0 cs with
      | some (oh, ':' :: cs2) =>
        match readDigits 2 0 cs2 with
        | some (om, []) =>
          if oh ≤ 23 ∧ om ≤ 59 then
            some (some ((if c = '-' then -1 else 1) * ((oh * 3600 + om * 60 : ℕ) : ℤ)))
          else none
        | _ => none
      | _ => none
    else none

/-- Parses the time-of-day part `HH[:MM[:SS[.f..ffffff]]]` with its
optional UTC-offset suffix, returning hour, minute, second, microsecond and
offset. -/
def readTime (cs : List Char) : Option (ℕ × ℕ × ℕ × ℕ × Option ℤ) := do
  let (h, cs) ← readDigits 2 0 cs
  match cs with
  | ':' :: cs => do
    let (mi, cs) ← readDigits 2 0 cs
    match cs with
    | ':' :: cs => do
      let (se, cs) ← readDigits 2 0 cs
      match cs with
      | '.' :: cs => do
        let (us, cs) ← readFraction cs
        let tz ← readTz cs
        some (h, mi, se, us, tz)
      | _ => do
        let tz ← readTz cs
        some (h, mi, se, 0, tz)
    | _ => do
      let tz ← readTz cs
      some (h, mi, 0, 0, tz)
  | _ => do
    let tz ← readTz cs
    some (h, 0, 0, 0, tz)

/-- Validation performed by the `datetime` constructor: every component must
be in range for the parse to succeed. -/
def mkValidDateTime (y mo d h mi se us : ℕ) (tz : Option ℤ) : Option PyDateTime :=
  if 1 ≤ y ∧ y ≤ 9999 ∧ 1 ≤ mo ∧ mo ≤ 12 ∧ 1 ≤ d ∧ d ≤ daysInMonth y mo
      ∧ h ≤ 23 ∧ mi ≤ 59 ∧ se ≤ 59 ∧ us ≤ 999999 then
    some ⟨y, mo, d, h, mi, se, us, tz⟩
  else none

/-- `datetime.datetime.fromisoformat` restricted to the extended ISO format
described above: `YYYY-MM-DD`, optionally a single separator character of
any kind, then a time of day with an optional UTC-offset suffix. -/
def fromisoformat (s : String) : Option PyDateTime := do
  let cs := s.toList
  let (y, cs) ← readDigits 4 0 cs
  let cs ← if cs.head? = some '-' then some cs.tail else none
  let (mo, cs) ← readDigits 2 0 cs
  let cs ← if cs.head? = some '-' then some cs.tail else none
  let (d, cs) ← readDigits 2 0 cs
  let (h, mi, se, us, tz) ←
    match cs with
    | [] => some (0, 0, 0, 0, none)
    | _sep :: rest => readTime rest
  mkValidDateTime y mo d h mi se us tz

/-- The `TypeError` Python raises when ordering or subtracting a naive and
an aware datetime; nothing in `src/commission.py` catches it (the
`except ValueError` there only wraps the two `fromisoformat` calls). -/
inductive PyTypeError where
  | naiveAwareCompare
deriving DecidableEq, Repr

/-- `CommissionCalculator._determine_holding_type` from `src/commission.py`:
missing, empty or unparseable timestamps give `UNKNOWN`; comparing a naive
entry with an aware exit (or conversely) raises an uncaught `TypeError`;
otherwise an exit at or before the entry, the same calendar date, or an
elapsed time under one day give `INTRADAY`, and any other pair is
`DELIVERY`. -/
def _determine_holding_type (buy_datetime sell_datetime : Option String) :
    Except PyTypeError HoldingType :=
  match buy_datetime, sell_datetime with
  | some bs, some ss =>
    if bs = "" ∨ ss = "" then Except.ok HoldingType.UNKNOWN
    else
      match fromisoformat bs, fromisoformat ss with
      | some buy_dt, some sell_dt =>
        if buy_dt.tzoffset.isSome ≠ sell_dt.tzoffset.isSome then
          Except.error PyTypeError.naiveAwareCompare
        else if instantMicros sell_dt ≤ instantMicros buy_dt then
          Except.ok HoldingType.INTRADAY
        else if dateTriple buy_dt = dateTriple sell_dt
            ∨ instantMicros sell_dt - instantMicros buy_dt < microsPerDay then
          Except.ok HoldingType.INTRADAY
        else Except.ok HoldingType.DELIVERY
      | _, _ => Except.ok HoldingType.UNKNOWN
  | _, _ => Except.ok HoldingType.UNKNOWN

/-- How the commission calculation can fail on the Python side: with a
`ValueError` (which `calculate_commission_fees` catches and turns into an
error dictionary), with a `KeyError` from `self.master_schedule["base"]`
when the schedule has no `base` section, or with the `TypeError` of a
naive/aware datetime comparison inside `_determine_holding_type` — the
latter two are caught nowhere in `src/commission.py`. -/
inductive EffErr where
  | valueError (e : MergeErr) (rewrapped : Bool)
  | assetNotFound (asset broker : String)
  | keyError
  | typeError (e : PyTypeError)
deriving DecidableEq, Repr

/-- `CommissionCalculator._get_effective_fees` from `src/commission.py`:
resolves the broker section through the inheritance chain (re-wrapping
resolution errors whose message contains `"not found"` as a
broker-not-found error), deep-merges the broker's asset override onto the
base asset configuration, and fails when the merged result has neither a
truthy `broker` nor a truthy `regulatory` entry. -/
def _get_effective_fees (master_schedule : Schedule) (broker_key : String)
    (asset_type : AssetType) : Except EffErr JDict :=
  let asset_key := asset_type.value
  match get_merged_section master_schedule broker_key "inherits_from" with
  | Except.error e => Except.error (EffErr.valueError e e.containsNotFound)
  | Except.ok merged_broker_config =>
    match schedGet master_schedule "base" with
    | none => Except.error EffErr.keyError
    | some base_section =>
      let base_asset_config := jgetObj base_section asset_key
      let merged_asset_config := jgetObj merged_broker_config asset_key
      let effective_config := deep_merge base_asset_config merged_asset_config
      if !jtruthy (jget effective_config "broker")
          && !jtruthy (jget effective_config "regulatory") then
        Except.error (EffErr.assetNotFound asset_key broker_key)
      else
        Except.ok effective_config

/-- The dictionary `calculate_commission_fees` returns: either a dictionary
containing an `error` key, or a stocks fee breakdown. -/
inductive FeeResult where
  | err (msg : String)
  | fees (breakdown : FeesBreakdown)
deriving DecidableEq, Repr

/-- `CommissionCalculator.calculate_commission_fees` from
`src/commission.py`.  A non-positive principal and every `ValueError` from
fee resolution are reported as an error dictionary; a missing `base`
section escapes as an uncaught `KeyError` and a naive/aware timestamp pair
as an uncaught `TypeError` (the `Except.error` cases); only the STOCKS
asset type has a fee model, the other asset types return a not-implemented
error dictionary. -/
def calculate_commission_fees (master_schedule : Schedule) (broker_key : String)
    (principal_value : ℚ) (trade_side : TradeSide) (asset_type : AssetType)
    (buy_datetime sell_datetime : Option String) : Except EffErr FeeResult :=
  if principal_value ≤ 0 then
    Except.ok (FeeResult.err "Principal value must be positive.")
  else
    match _get_effective_fees master_schedule broker_key asset_type with
    | Except.error (EffErr.valueError e rw) =>
      Except.ok (FeeResult.err ("ValueError " ++ (if rw then "broker key not found: " else "") ++
        (match e with
         | MergeErr.derivedNotFound s => s
         | MergeErr.maxDepthExceeded => "max depth exceeded"
         | MergeErr.loopDetected s => "loop detected at " ++ s
         | MergeErr.parentNotFound p c => "parent " ++ p ++ " of " ++ c ++ " not found")))
    | Except.error (EffErr.assetNotFound a b) =>
      Except.ok (FeeResult.err ("Asset type " ++ a ++ " configuration not found in schedule for broker " ++ b))
    | Except.error EffErr.keyError => Except.error EffErr.keyError
    | Except.error (EffErr.typeError e) => Except.error (EffErr.typeError e)
    | Except.ok effective_rates =>
      match _determine_holding_type buy_datetime sell_datetime with
      | Except.error e => Except.error (EffErr.typeError e)
      | Except.ok holding_type =>
        match asset_type with
        | AssetType.STOCKS =>
          Except.ok (FeeResult.fees
            (_calculate_stocks_fees principal_value trade_side holding_type effective_rates))
        | a => Except.ok (FeeResult.err ("Fee calculation for " ++ a.value ++ " is not yet implemented."))

/-! ## The backtesting engine (`Backtester` from `src/backtester.py`) -/

/-- The per-trade exit fields that `run` adds to a trade record when it
closes a position (`Exit_Date`, `Exit_Price`, `Fees_Exit`). -/
structure TradeExit where
  exit_date : String
  exit_price : ℚ
  fees_exit : ℚ
deriving DecidableEq, Repr

/-- A trade record of the ledger `self.trades`.  A record with
`texit = none` has no exit fields yet and is an open trade. -/
structure Trade where
  entry_date : String
  entry_price : ℚ
  ttype : String
  shares : ℚ
  fees_entry : ℚ
  texit : Option TradeExit
deriving DecidableEq, Repr

/-- One row of the input series: the bar's timestamp (its index entry, kept
as its ISO string), closing price, and signal. -/
structure Bar where
  date : String
  close : ℚ
  signal : SIGNAL
deriving DecidableEq, Repr

/-- The `Backtester` object: the commission configuration fixed at
construction, plus the mutable simulation state. -/
structure Backtester where
  master_schedule : Schedule
  broker_key : String
  asset_type : AssetType
  initial_capital : ℚ
  cash : ℚ
  shares : ℚ
  position : POSITION
  trades : List Trade
  equity_curve : List ℚ
  final_equity : ℚ

/-- `Backtester._reset_state`: cash back to the initial capital, no shares,
no position, an empty ledger, no equity curve and zero final equity. -/
def _reset_state (b : Backtester) : Backtester :=
  { b with cash := b.initial_capital, shares := 0, position := POSITION.NOT_HELD,
           trades := [], equity_curve := [], final_equity := 0 }

/-- The type of the fee helper the simulation loop calls: principal, trade
side, optional buy date, optional sell date, to a total fee. -/
abbrev FeeFn := ℚ → TradeSide → Option String → Option String → ℚ

/-- `Backtester._get_trade_fees`: calls the commission calculator and reads
back the `TOTAL TRANSACTION FEE (₹)` entry of the result — the rounded
total.  A result carrying an `error` key, or any escaped exception, is
turned into a fee of 0 so the simulation continues. -/
def _get_trade_fees (b : Backtester) : FeeFn := fun principal_value trade_side buy_date sell_date =>
  match calculate_commission_fees b.master_schedule b.broker_key principal_value
      trade_side b.asset_type buy_date sell_date with
  | Except.error _ => 0
  | Except.ok (FeeResult.err _) => 0
  | Except.ok (FeeResult.fees r) => r.total

/-- The equity valuation the loop body of `run` records for a bar: for a
SHORT position, cash minus the absolute liability; otherwise cash plus the
value of the holdings. -/
def equity_at (b : Backtester) (price : ℚ) : ℚ :=
  if b.position = POSITION.SELL then b.cash - |b.shares| * price
  else b.cash + b.shares * price

/-- The trade-logic block of the loop body of `Backtester.run`, which
mutates `cash`, `shares`, `position` and `trades` according to the
(position, signal) pair.  The guards are exactly the source's: an entry
fires only from NOT_HELD (a long entry is abandoned when the principal
minus fees is not positive), an exit fires only from the matching position
and only when the ledger ends in a record without exit fields. -/
def trade_step (fees : FeeFn) (b : Backtester) (bar : Bar) : Backtester :=
  if b.position = POSITION.NOT_HELD then
    if bar.signal = SIGNAL.BUY_ENTRY then
      let principal_value := b.cash
      let fee := fees principal_value TradeSide.BUY (some bar.date) none
      let shares_capital := principal_value - fee
      if 0 < shares_capital then
        { b with shares := shares_capital / bar.close, cash := 0,
                 position := POSITION.BUY,
                 trades := b.trades ++ [{ entry_date := bar.date, entry_price := bar.close,
                                          ttype := "Long", shares := shares_capital / bar.close,
                                          fees_entry := fee, texit := none }] }
      else b
    else if bar.signal = SIGNAL.SELL_ENTRY then
      let shares_to_short := b.cash / bar.close
      let principal_value := shares_to_short * bar.close
      let fee := fees principal_value TradeSide.SELL none (some bar.date)
      { b with cash := b.cash + (principal_value - fee),
               shares := -shares_to_short, position := POSITION.SELL,
               trades := b.trades ++ [{ entry_date := bar.date, entry_price := bar.close,
                                        ttype := "Short", shares := shares_to_short,
                                        fees_entry := fee, texit := none }] }
    else b
  else if b.position = POSITION.BUY then
    if bar.signal = SIGNAL.BUY_EXIT then
      match b.trades.getLast? with
      | none => b
      | some last =>
        if last.texit.isSome then b
        else
          let principal_value := b.shares * bar.close
          let fee := fees principal_value TradeSide.SELL (some last.entry_date) (some bar.date)
          { b with cash := b.cash + (principal_value - fee),
                   trades := b.trades.dropLast ++
                     [{ last with texit := some ⟨bar.date, bar.close, fee⟩ }],
                   shares := 0, position := POSITION.NOT_HELD }
    else b
  else
    if bar.signal = SIGNAL.SELL_EXIT then
      match b.trades.getLast? with
      | none => b
      | some last =>
        if last.texit.isSome then b
        else
          let shares_to_cover := |b.shares|
          let principal_value := shares_to_cover * bar.close
          let fee := fees principal_value TradeSide.BUY (some last.entry_date) (some bar.date)
          { b with cash := b.cash - (principal_value + fee),
                   trades := b.trades.dropLast ++
                     [{ last with texit := some ⟨bar.date, bar.close, fee⟩ }],
                   shares := 0, position := POSITION.NOT_HELD }
    else b

/-- One full iteration of the loop of `run` for bar `i ≥ 1`: the equity for
the bar is recorded first, from the state the loop entered the iteration
with, and the trade logic runs afterwards. -/
def bar_step (fees : FeeFn) (acc : Backtester × List ℚ) (bar : Bar) : Backtester × List ℚ :=
  (trade_step fees acc.1 bar, acc.2 ++ [equity_at acc.1 bar.close])

/-- The body of `Backtester.run` for an arbitrary fee helper: reset the
state, iterate over the bars from index 1, store the recorded equities as
the equity curve (every recorded entry is a number, so `dropna` keeps them
all), and set the final equity to the last curve value, or the initial
capital when the curve is empty. -/
def runWith (fees : FeeFn) (b : Backtester) (bars : List Bar) : Backtester :=
  let b0 := _reset_state b
  let acc := (bars.drop 1).foldl (bar_step fees) (b0, [])
  { acc.1 with equity_curve := acc.2,
               final_equity := acc.2.getLast?.getD acc.1.initial_capital }

/-- `Backtester.run` from `src/backtester.py`: the loop with the object's
own fee helper `_get_trade_fees` (whose configuration fields never change
during the run). -/
def run (b : Backtester) (bars : List Bar) : Backtester :=
  runWith (_get_trade_fees b) b bars

/-- The simulation state `run` has reached just before processing bar `i`
(that is, after the transitions of bars `1 .. i-1`). -/
def preState (b : Backtester) (bars : List Bar) (i : ℕ) : Backtester :=
  ((bars.take i).drop 1).foldl (trade_step (_get_trade_fees b)) (_reset_state b)

/-- Number of open trades (records without exit fields) in a ledger. -/
def openCount (ts : List Trade) : ℕ :=
  (ts.filter (fun t => t.texit.isNone)).length

/-- Whether the guard `if not self.trades or 'Exit_Date' in self.trades[-1]`
blocks an exit: the ledger is empty or its last record is already closed. -/
def lastExitClosed (ts : List Trade) : Bool :=
  match ts.getLast? with
  | none => true
  | some t => t.texit.isSome

/-- The list of equities the loop records while processing `bars` from the
state `b`: each bar contributes the valuation of the state the loop entered
its iteration with, at that bar's closing price. -/
def equityRecords (fees : FeeFn) (b : Backtester) : List Bar → List ℚ
  | [] => []
  | bar :: rest => equity_at b bar.close :: equityRecords fees (trade_step fees b bar) rest

/-- The ledger well-formedness the simulation maintains: every record but
possibly the last is closed, and out of a position the whole ledger is
closed. -/
def TradesWF (b : Backtester) : Prop :=
  (∀ t ∈ b.trades.dropLast, t.texit.isSome) ∧
  (b.position = POSITION.NOT_HELD → ∀ t ∈ b.trades, t.texit.isSome)

/-! ## Performance metrics (`_calculate_sharpe_ratio`) -/

/-- One kept entry of `equity_curve.pct_change().dropna()`: a finite
percentage change `(cur - prev) / prev`, or the `inf`/`-inf` float that
pandas produces when the previous value is 0 and the current one is not —
`dropna` removes NaN but keeps infinities. -/
inductive PCRet where
  | fin (q : ℚ)
  | pinf
  | ninf
deriving DecidableEq, Repr

/-- Whether a kept percentage-change entry is an infinity. -/
def PCRet.isInf : PCRet → Bool
  | .fin _ => false
  | _ => true

/-- Daily percentage changes of an equity curve,
`equity_curve.pct_change().dropna()`: consecutive pairs `(prev, cur)` give
`(cur - prev) / prev` when `prev ≠ 0`, the infinity of the sign of `cur`
when `prev = 0 ≠ cur`, and a dropped NaN when both are 0 (the leading NaN
of `pct_change` is likewise dropped). -/
def daily_returns (equity : List ℚ) : List PCRet :=
  (equity.zip equity.tail).filterMap (fun p =>
    if p.1 ≠ 0 then some (PCRet.fin ((p.2 - p.1) / p.1))
    else if 0 < p.2 then some PCRet.pinf
    else if p.2 < 0 then some PCRet.ninf
    else none)

/-- The finite entries of a percentage-change series. -/
def finVals (l : List PCRet) : List ℚ :=
  l.filterMap (fun r => match r with | PCRet.fin q => some q | _ => none)

/-- Arithmetic mean of a list (`Series.mean` on an all-finite series). -/
def listMean (l : List ℚ) : ℚ := l.sum / l.length

/-- Sample variance with `ddof = 1` of an all-finite series, the square of
`Series.std`; `none` models the NaN that pandas returns on fewer than two
observations.  The source only compares the standard deviation with 0 and
divides by it, and `std r = 0 ↔ sampleVar r = some 0`. -/
def sampleVar (l : List ℚ) : Option ℚ :=
  if l.length < 2 then none
  else some (((l.map (fun x => (x - listMean l) ^ 2)).sum) / (l.length - 1))

/-- The square of `Series.std` over a kept percentage-change series:
any infinite entry makes the mean and hence the standard deviation NaN
(`none`), as does having fewer than two observations. -/
def seriesVar (l : List PCRet) : Option ℚ :=
  if l.any PCRet.isInf then none else sampleVar (finVals l)

/-- The value of the Sharpe computation, represented exactly: `zero` for the
guarded early return `0.0`, `nan` when a NaN standard deviation propagates
through the division, and `ratio m v` for the float
`(m / sqrt v) * sqrt 252` with `m` the mean return and `v` the (positive)
variance of the returns. -/
inductive SharpeOutcome where
  | zero
  | nan
  | ratio (m v : ℚ)
deriving DecidableEq, Repr

/-- `Backtester._calculate_sharpe_ratio` (with the default risk-free rate
0): 0 for a missing or empty equity curve; then the guard
`std == 0 or len == 0` returns 0 — when the standard deviation is NaN
(a single observation, or an infinite return from a zero equity value)
neither disjunct holds on a non-empty series and the division produces
NaN; otherwise the annualised ratio of the mean to the standard
deviation. -/
def calculate_sharpe (equity : List ℚ) : SharpeOutcome :=
  if equity.isEmpty then SharpeOutcome.zero
  else
    let r := daily_returns equity
    match seriesVar r with
    | none => if r.length = 0 then SharpeOutcome.zero else SharpeOutcome.nan
    | some v =>
      if v = 0 ∨ r.length = 0 then SharpeOutcome.zero
      else SharpeOutcome.ratio (listMean (finVals r)) v

/-! ## Concrete instances used in the checks below -/

/-- A rates dictionary with non-trivial regulatory entries. -/
def exRates : JDict :=
  [("regulatory", JVal.obj
    [("etc_rate", JVal.num (1/1000)), ("gst_rate", JVal.num (18/100)),
     ("stt_delivery", JVal.num (1/1000)), ("stt_intraday", JVal.num (1/4000))])]

/-- A one-broker master schedule whose stocks fees are 0.1% exchange
charges plus 18% GST. -/
def exSchedule : Schedule :=
  [("base", [("stocks", JVal.obj
    [("regulatory", JVal.obj
      [("etc_rate", JVal.num (1/1000)), ("gst_rate", JVal.num (18/100))])])])]

/-- A one-broker master schedule whose only stocks fee is a flat 10%
exchange charge. -/
def exScheduleFlat : Schedule :=
  [("base", [("stocks", JVal.obj
    [("regulatory", JVal.obj [("etc_rate", JVal.num (1/10))])])])]

/-- A freshly constructed backtester over `exScheduleFlat` with capital
100000. -/
def exBacktester : Backtester :=
  { master_schedule := exScheduleFlat, broker_key := "base",
    asset_type := AssetType.STOCKS, initial_capital := 100000,
    cash := 100000, shares := 0, position := POSITION.NOT_HELD,
    trades := [], equity_curve := [], final_equity := 0 }

/-- A two-bar input: a lag bar, then a long entry at price 100. -/
def exBars : List Bar :=
  [⟨"2025-01-01T00:00:00", 100, SIGNAL.NO_ACTION⟩,
   ⟨"2025-01-02T00:00:00", 100, SIGNAL.BUY_ENTRY⟩]

/-- A backtester over `exSchedule` with capital 100000. -/
def exBacktester2 : Backtester :=
  { master_schedule := exSchedule, broker_key := "base",
    asset_type := AssetType.STOCKS, initial_capital := 100000,
    cash := 100000, shares := 0, position := POSITION.NOT_HELD,
    trades := [], equity_curve := [], final_equity := 0 }

/-- A backtester whose broker key resolves nowhere: the schedule is empty. -/
def exBacktesterNoBroker : Backtester :=
  { master_schedule := [], broker_key := "zerodha",
    asset_type := AssetType.STOCKS, initial_capital := 1000,
    cash := 1000, shares := 0, position := POSITION.NOT_HELD,
    trades := [], equity_curve := [], final_equity := 0 }

/-- A schedule whose inheritance chain is the two-cycle c1 → c2 → c1. -/
def cycSched : Schedule :=
  [("c1", [("inherits_from", JVal.str "c2")]),
   ("c2", [("inherits_from", JVal.str "c1")])]

/-- A schedule with a 60-deep inheritance chain k0 → k1 → … — deeper than
the 50-iteration bound of the resolution loop. -/
def deepSched : Schedule :=
  (List.range 60).map
    (fun n => ("k" ++ Nat.repr n, [("inherits_from", JVal.str ("k" ++ Nat.repr (n + 1)))]))

/-! ## Theorems -/

/-- C4: for every positive principal, side BUY or SELL and holding type,
the STT component computed by the stocks fee algorithm is 0 for UNKNOWN,
`principal × stt_delivery` for a DELIVERY sell, 0 for a DELIVERY buy, and
`principal × stt_intraday` for INTRADAY on both sides; the breakdown
dictionary displays exactly this component rounded to 2 decimals. -/
theorem stt_component_rule (principal_value : ℚ) (hp : 0 < principal_value)
    (trade_side : TradeSide)
    (hside : trade_side = TradeSide.BUY ∨ trade_side = TradeSide.SELL)
    (holding_type : HoldingType) (rates : JDict) :
    (stocks_fee_components principal_value trade_side holding_type rates).stt_tax =
      (match holding_type with
      | HoldingType.UNKNOWN => 0
      | HoldingType.DELIVERY =>
        if trade_side = TradeSide.SELL then
          principal_value * dGetNum (jgetObj rates "regulatory") "stt_delivery"
        else 0
      | HoldingType.INTRADAY =>
        principal_value * dGetNum (jgetObj rates "regulatory") "stt_intraday") ∧
    (_calculate_stocks_fees principal_value trade_side holding_type rates).stt_tax =
      round2 (stocks_fee_components principal_value trade_side holding_type rates).stt_tax := by
  refine ⟨?_, rfl⟩
  rcases hside with h | h <;> subst h <;>
    cases holding_type <;>
      simp [stocks_fee_components]

/-- Witness for `stt_component_rule`: a delivery sell of 1000 over
`exRates` pays STT `1000 × stt_delivery`. -/
theorem stt_component_rule_witness :
    (stocks_fee_components 1000 TradeSide.SELL HoldingType.DELIVERY exRates).stt_tax =
      (if TradeSide.SELL = TradeSide.SELL then
        (1000 : ℚ) * dGetNum (jgetObj exRates "regulatory") "stt_delivery"
      else 0) :=
  (stt_component_rule 1000 (by norm_num) TradeSide.SELL (Or.inr rfl)
    HoldingType.DELIVERY exRates).1

/-- C9: fee-schedule inheritance resolution is a total function — for every
schedule and broker key it either returns a merged section or reports one
of the resolution `ValueError`s, and in particular a cyclic chain stops
with a loop error and a 60-deep chain stops with the over-depth error. -/
theorem gms_terminates :
    (∀ (config : Schedule) (derived : String),
      (∃ sec, get_merged_section config derived "inherits_from" = Except.ok sec) ∨
      (∃ e, get_merged_section config derived "inherits_from" = Except.error e)) ∧
    get_merged_section cycSched "c1" "inherits_from" =
      Except.error (MergeErr.loopDetected "c1") ∧
    get_merged_section deepSched "k0" "inherits_from" =
      Except.error MergeErr.maxDepthExceeded := by
  refine ⟨fun config derived => ?_, rfl, rfl⟩
  cases h : get_merged_section config derived "inherits_from" with
  | ok sec => exact Or.inl ⟨sec, rfl⟩
  | error e => exact Or.inr ⟨e, rfl⟩

/-- One step of the percentage-change list: the head pair contributes its
finite return when the previous value is nonzero, an infinity when the
previous value is zero and the current one is not, and nothing (a dropped
NaN) when both are zero. -/
theorem daily_returns_cons (a b : ℚ) (t : List ℚ) :
    daily_returns (a :: b :: t) =
      (if a = 0 then
        (if 0 < b then [PCRet.pinf] else if b < 0 then [PCRet.ninf] else [])
       else [PCRet.fin ((b - a) / a)]) ++ daily_returns (b :: t) := by
  by_cases ha : a = 0
  · by_cases hb1 : 0 < b
    · simp [daily_returns, ha, hb1]
    · by_cases hb2 : b < 0 <;> simp [daily_returns, ha, hb1, hb2]
  · simp [daily_returns, ha]

/-- A constant curve with nonzero value has all-zero finite percentage
changes. -/
theorem daily_returns_flat (c : ℚ) (hc : c ≠ 0) :
    ∀ l : List ℚ, (∀ x ∈ l, x = c) →
      daily_returns l = List.replicate (l.length - 1) (PCRet.fin 0) := by
  intro l
  induction l with
  | nil => intro _; simp [daily_returns]
  | cons a t ih =>
    intro hall
    cases t with
    | nil => simp [daily_returns]
    | cons b t' =>
      have ha : a = c := hall a (by simp)
      have hb : b = c := hall b (by simp)
      have ht : ∀ x ∈ b :: t', x = c := fun x hx => hall x (by simp [hx])
      rw [daily_returns_cons, ih ht, ha, hb, if_neg hc]
      simp [List.replicate_succ]

/-- The finite entries of an all-finite-zero series are the zeros. -/
theorem finVals_replicate_zero (n : ℕ) :
    finVals (List.replicate n (PCRet.fin 0)) = List.replicate n (0 : ℚ) := by
  induction n with
  | zero => rfl
  | succ k ih => simpa [finVals, List.replicate_succ] using ih

/-- An all-finite-zero series contains no infinity. -/
theorem any_isInf_replicate_zero (n : ℕ) :
    (List.replicate n (PCRet.fin 0)).any PCRet.isInf = false := by
  induction n with
  | zero => rfl
  | succ k ih => simpa [PCRet.isInf, List.replicate_succ] using ih

/-- The sample variance of at least two all-zero observations is zero. -/
theorem sampleVar_replicate_zero (n : ℕ) (hn : 2 ≤ n) :
    sampleVar (List.replicate n (0 : ℚ)) = some 0 := by
  have hlen : (List.replicate n (0 : ℚ)).length = n := List.length_replicate n 0
  rw [sampleVar, if_neg (by omega)]
  congr 1
  have hmean : listMean (List.replicate n (0 : ℚ)) = 0 := by
    simp [listMean, List.sum_replicate]
  rw [hmean]
  simp [List.map_replicate, List.sum_replicate]

/-- C3 counterexample: on the two-point flat equity curve `[100, 100]` the
percentage-change series has exactly one observation, its standard
deviation is NaN rather than 0, the zero guard does not fire, and the
computed Sharpe ratio is NaN — not the 0 the claim requires. -/
theorem sharpe_flat_two_point_nan :
    calculate_sharpe [100, 100] = SharpeOutcome.nan ∧
      SharpeOutcome.nan ≠ SharpeOutcome.zero := by
  refine ⟨?_, by simp⟩
  have hr : daily_returns [100, 100] = [PCRet.fin 0] := by
    norm_num [daily_returns, List.filterMap_cons, List.filterMap_nil]
  rw [calculate_sharpe, if_neg (by simp)]
  rw [hr]
  norm_num [seriesVar, sampleVar, finVals, PCRet.isInf, List.filterMap_cons,
    List.filterMap_nil]

/-- C3 amended: the Sharpe computation returns 0 when there are no return
observations, or when the return series has a (non-NaN) standard deviation
of zero — in particular on a flat positive curve of length at least 3.
But the `std == 0 or len == 0` guard lets a NaN standard deviation
through: with exactly one return observation (a two-point curve), or with
an infinite return produced by a zero equity value, the result is NaN,
not 0.  A `ratio m v` result always carries the mean and the (nonzero)
variance of the return series, annualised by √252. -/
theorem sharpe_guard_amended (equity : List ℚ) :
    ((daily_returns equity).length = 0 →
        calculate_sharpe equity = SharpeOutcome.zero) ∧
    (seriesVar (daily_returns equity) = some 0 →
        calculate_sharpe equity = SharpeOutcome.zero) ∧
    ((daily_returns equity).length = 1 →
        calculate_sharpe equity = SharpeOutcome.nan) ∧
    ((daily_returns equity).any PCRet.isInf = true →
        calculate_sharpe equity = SharpeOutcome.nan) ∧
    (3 ≤ equity.length → (∀ x ∈ equity, x = equity.headD 0) →
        equity.headD 0 ≠ 0 → calculate_sharpe equity = SharpeOutcome.zero) ∧
    (∀ m v, calculate_sharpe equity = SharpeOutcome.ratio m v →
        m = listMean (finVals (daily_returns equity)) ∧
          seriesVar (daily_returns equity) = some v ∧ v ≠ 0) := by
  by_cases hemp : equity.isEmpty
  · refine ⟨fun _ => by simp [calculate_sharpe, hemp], fun hvar => ?_, fun hlen => ?_,
      fun hinf => ?_, fun _ _ _ => by simp [calculate_sharpe, hemp], fun m v hE => ?_⟩
    · rw [List.isEmpty_iff] at hemp
      subst hemp
      simp [daily_returns, seriesVar, sampleVar, finVals] at hvar
    · rw [List.isEmpty_iff] at hemp
      subst hemp
      simp [daily_returns] at hlen
    · rw [List.isEmpty_iff] at hemp
      subst hemp
      simp [daily_returns] at hinf
    · rw [calculate_sharpe, if_pos hemp] at hE
      exact absurd hE (by simp)
  · have hstep : calculate_sharpe equity =
        (match seriesVar (daily_returns equity) with
         | none => if (daily_returns equity).length = 0 then SharpeOutcome.zero
                   else SharpeOutcome.nan
         | some v =>
           if v = 0 ∨ (daily_returns equity).length = 0 then SharpeOutcome.zero
           else SharpeOutcome.ratio (listMean (finVals (daily_returns equity))) v) := by
      rw [calculate_sharpe, if_neg hemp]
    refine ⟨fun hlen => ?_, fun hvar => ?_, fun hlen => ?_, fun hinf => ?_,
      fun hbig hall hnz => ?_, fun m v hE => ?_⟩
    · have hr0 : daily_returns equity = [] := List.length_eq_zero.mp hlen
      have hvar : seriesVar (daily_returns equity) = none := by
        rw [hr0]; rfl
      rw [hstep, hvar]
      simp [hlen]
    · rw [hstep, hvar]
      simp
    · have hvar : seriesVar (daily_returns equity) = none := by
        rw [seriesVar]
        split_ifs with hi
        · rfl
        · have h2 : (finVals (daily_returns equity)).length ≤
              (daily_returns equity).length := List.length_filterMap_le _ _
          rw [sampleVar, if_pos (by omega)]
      rw [hstep, hvar]
      simp [hlen]
    · have hvar : seriesVar (daily_returns equity) = none := by
        rw [seriesVar, if_pos hinf]
      have hne : (daily_returns equity).length ≠ 0 := by
        intro h0
        rw [List.length_eq_zero.mp h0] at hinf
        simp at hinf
      rw [hstep, hvar, if_neg hne]
    · have hflat := daily_returns_flat (equity.headD 0) hnz equity hall
      have hvar : seriesVar (daily_returns equity) = some 0 := by
        rw [hflat, seriesVar, if_neg (by simp [PCRet.isInf]),
          finVals_replicate_zero]
        exact sampleVar_replicate_zero _ (by omega)
      rw [hstep, hvar]
      simp
    · rw [hstep] at hE
      cases hvar : seriesVar (daily_returns equity) with
      | none =>
        simp only [hvar] at hE
        by_cases hl : (daily_returns equity).length = 0 <;> simp [hl] at hE
      | some v' =>
        simp only [hvar] at hE
        by_cases hz : v' = 0 ∨ (daily_returns equity).length = 0
        · rw [if_pos hz] at hE
          exact absurd hE (by simp)
        · rw [if_neg hz] at hE
          push_neg at hz
          injection hE with hm hv
          refine ⟨hm.symm, ?_, ?_⟩
          · rw [← hv]
          · rw [← hv]; exact hz.1

/-- Witness for `sharpe_guard_amended`: a flat three-point curve yields
Sharpe 0, and a curve starting at equity 0 yields NaN through the infinite
percentage change. -/
theorem sharpe_guard_amended_witness :
    calculate_sharpe [100, 100, 100] = SharpeOutcome.zero ∧
    calculate_sharpe [0, 5, 5, 5] = SharpeOutcome.nan :=
  ⟨(sharpe_guard_amended [100, 100, 100]).2.2.2.2.1 (by norm_num)
      (by intro x hx; simp at hx; simp [hx]) (by norm_num),
   (sharpe_guard_amended [0, 5, 5, 5]).2.2.2.1
      (by norm_num [daily_returns, PCRet.isInf])⟩

/-- C2: the fee the simulator uses is the rounded total.  For a BUY of
1234.50 under `exSchedule` the exact total fee is 1.45671, but
`_get_trade_fees` returns the 2-decimal rounded dictionary entry 1.46, so
the fee applied to cash and stored in the trade record is not the
full-precision total. -/
theorem fee_total_is_rounded :
    _get_trade_fees exBacktester2 (2469/2) TradeSide.BUY none none = 146/100 ∧
    (stocks_fee_components (2469/2) TradeSide.BUY HoldingType.UNKNOWN
      [("regulatory", JVal.obj
        [("etc_rate", JVal.num (1/1000)), ("gst_rate", JVal.num (18/100))])]).total_fees
      = 145671/100000 ∧
    (146/100 : ℚ) ≠ 145671/100000 := by
  have hcomp : (stocks_fee_components (2469/2) TradeSide.BUY HoldingType.UNKNOWN
      [("regulatory", JVal.obj
        [("etc_rate", JVal.num (1/1000)), ("gst_rate", JVal.num (18/100))])]).total_fees
      = 145671/100000 := by
    set R : JDict := [("regulatory", JVal.obj
      [("etc_rate", JVal.num (1/1000)), ("gst_rate", JVal.num (18/100))])] with hR
    have e1 : dGetNum (jgetObj R "broker") ("rate_" ++ Nat.repr TradeSide.BUY.value) = 0 := rfl
    have e2 : dGetNum (jgetObj R "broker") ("const_" ++ Nat.repr TradeSide.BUY.value) = 0 := rfl
    have e3 : dGetNumOpt (jgetObj R "broker") ("cap_" ++ Nat.repr TradeSide.BUY.value) = none := rfl
    have e4 : dGetNum (jgetObj R "regulatory") "etc_rate" = 1/1000 := rfl
    have e5 : dGetNum (jgetObj R "regulatory") "sebi_rate" = 0 := rfl
    have e6 : dGetNum (jgetObj R "regulatory") "stamp_duty_rate" = 0 := rfl
    have e7 : dGetNum (jgetObj R "regulatory") "gst_rate" = 18/100 := rfl
    simp only [stocks_fee_components, e1, e2, e3, e4, e5, e6, e7]
    norm_num
    simp
  refine ⟨?_, hcomp, by norm_num⟩
  have heff : _get_effective_fees exSchedule "base" AssetType.STOCKS =
      Except.ok [("regulatory", JVal.obj
        [("etc_rate", JVal.num (1/1000)), ("gst_rate", JVal.num (18/100))])] := rfl
  have hcalc : calculate_commission_fees exSchedule "base" (2469/2) TradeSide.BUY
      AssetType.STOCKS none none =
      Except.ok (FeeResult.fees (_calculate_stocks_fees (2469/2) TradeSide.BUY
        HoldingType.UNKNOWN
        [("regulatory", JVal.obj
          [("etc_rate", JVal.num (1/1000)), ("gst_rate", JVal.num (18/100))])])) := by
    rw [calculate_commission_fees, if_neg (by norm_num : ¬ ((2469:ℚ)/2 ≤ 0)), heff]
    rfl
  have htf : _get_trade_fees exBacktester2 (2469/2) TradeSide.BUY none none =
      round2 ((stocks_fee_components (2469/2) TradeSide.BUY HoldingType.UNKNOWN
        [("regulatory", JVal.obj
          [("etc_rate", JVal.num (1/1000)), ("gst_rate", JVal.num (18/100))])]).total_fees) := by
    simp only [_get_trade_fees, exBacktester2, hcalc, _calculate_stocks_fees]
  rw [htf, hcomp]
  norm_num [round2, round_half_even]

/-- The trade logic never touches the configuration fields of the object. -/
theorem trade_step_config (fees : FeeFn) (b : Backtester) (bar : Bar) :
    (trade_step fees b bar).master_schedule = b.master_schedule ∧
    (trade_step fees b bar).broker_key = b.broker_key ∧
    (trade_step fees b bar).asset_type = b.asset_type ∧
    (trade_step fees b bar).initial_capital = b.initial_capital := by
  simp only [trade_step]
  repeat' split
  all_goals exact ⟨rfl, rfl, rfl, rfl⟩

/-- Configuration preservation extends to the whole simulation loop. -/
theorem foldl_trade_step_config (fees : FeeFn) :
    ∀ (l : List Bar) (b : Backtester),
      ((l.foldl (trade_step fees) b).master_schedule = b.master_schedule ∧
       (l.foldl (trade_step fees) b).broker_key = b.broker_key ∧
       (l.foldl (trade_step fees) b).asset_type = b.asset_type ∧
       (l.foldl (trade_step fees) b).initial_capital = b.initial_capital) := by
  intro l
  induction l with
  | nil => intro b; exact ⟨rfl, rfl, rfl, rfl⟩
  | cons bar t ih =>
    intro b
    have h1 := trade_step_config fees b bar
    have h2 := ih (trade_step fees b bar)
    simp only [List.foldl_cons]
    exact ⟨h2.1.trans h1.1, h2.2.1.trans h1.2.1, h2.2.2.1.trans h1.2.2.1,
      h2.2.2.2.trans h1.2.2.2⟩

/-- The loop of `run` decomposes into the trade-state fold and the list of
recorded equities. -/
theorem foldl_bar_step_decomp (fees : FeeFn) :
    ∀ (l : List Bar) (b : Backtester) (e : List ℚ),
      l.foldl (bar_step fees) (b, e) =
        (l.foldl (trade_step fees) b, e ++ equityRecords fees b l) := by
  intro l
  induction l with
  | nil => intro b e; simp [equityRecords]
  | cons bar t ih =>
    intro b e
    simp only [List.foldl_cons, bar_step, equityRecords]
    rw [ih]
    simp

/-- The equity curve stored by `runWith` is the list of recorded equities. -/
theorem runWith_equity_curve (fees : FeeFn) (b : Backtester) (bars : List Bar) :
    (runWith fees b bars).equity_curve =
      equityRecords fees (_reset_state b) (bars.drop 1) := by
  rw [runWith, foldl_bar_step_decomp]
  simp

/-- The ledger stored by `runWith` is the ledger of the trade-state fold. -/
theorem runWith_trades (fees : FeeFn) (b : Backtester) (bars : List Bar) :
    (runWith fees b bars).trades =
      ((bars.drop 1).foldl (trade_step fees) (_reset_state b)).trades := by
  rw [runWith, foldl_bar_step_decomp]

/-- Two backtesters with the same configuration reset to the same state. -/
theorem reset_state_congr (b₁ b₂ : Backtester)
    (hms : b₁.master_schedule = b₂.master_schedule)
    (hbk : b₁.broker_key = b₂.broker_key)
    (hat : b₁.asset_type = b₂.asset_type)
    (hic : b₁.initial_capital = b₂.initial_capital) :
    _reset_state b₁ = _reset_state b₂ := by
  cases b₁; cases b₂
  simp only at hms hbk hat hic
  simp [_reset_state, hms, hbk, hat, hic]

/-- The fee helper only reads the configuration fields. -/
theorem get_trade_fees_congr (b₁ b₂ : Backtester)
    (hms : b₁.master_schedule = b₂.master_schedule)
    (hbk : b₁.broker_key = b₂.broker_key)
    (hat : b₁.asset_type = b₂.asset_type) :
    _get_trade_fees b₁ = _get_trade_fees b₂ := by
  funext p side bd sd
  rw [_get_trade_fees, _get_trade_fees, hms, hbk, hat]

/-- A run is a function of the configuration fields and the input alone. -/
theorem run_congr_config (b₁ b₂ : Backtester) (bars : List Bar)
    (hms : b₁.master_schedule = b₂.master_schedule)
    (hbk : b₁.broker_key = b₂.broker_key)
    (hat : b₁.asset_type = b₂.asset_type)
    (hic : b₁.initial_capital = b₂.initial_capital) :
    run b₁ bars = run b₂ bars := by
  rw [run, run, get_trade_fees_congr b₁ b₂ hms hbk hat, runWith, runWith,
    reset_state_congr b₁ b₂ hms hbk hat hic]

/-- C10: running the same input twice in a row on one `Backtester` instance
gives the same object both times — `run` starts from `_reset_state`, so
nothing from the first run leaks into the second. -/
theorem run_twice_idempotent (b : Backtester) (bars : List Bar) :
    (_reset_state b).cash = b.initial_capital ∧
    (_reset_state b).shares = 0 ∧
    (_reset_state b).position = POSITION.NOT_HELD ∧
    (_reset_state b).trades = [] ∧
    run (run b bars) bars = run b bars := by
  refine ⟨rfl, rfl, rfl, rfl, ?_⟩
  have hconf := foldl_trade_step_config (_get_trade_fees b) (bars.drop 1) (_reset_state b)
  apply run_congr_config
  · rw [run, runWith, foldl_bar_step_decomp]
    exact hconf.1.trans rfl
  · rw [run, runWith, foldl_bar_step_decomp]
    exact hconf.2.1.trans rfl
  · rw [run, runWith, foldl_bar_step_decomp]
    exact hconf.2.2.1.trans rfl
  · rw [run, runWith, foldl_bar_step_decomp]
    exact hconf.2.2.2.trans rfl

/-- Indexing into the recorded-equity list: entry `j` is the valuation of
the trade state reached after the first `j` bars of the processed list, at
the `j`-th bar's closing price. -/
theorem equityRecords_get (fees : FeeFn) :
    ∀ (l : List Bar) (b : Backtester) (j : ℕ),
      (equityRecords fees b l)[j]? =
        (l[j]?).map (fun bar =>
          equity_at ((l.take j).foldl (trade_step fees) b) bar.close) := by
  intro l
  induction l with
  | nil => intro b j; simp [equityRecords]
  | cons bar t ih =>
    intro b j
    cases j with
    | zero => simp [equityRecords]
    | succ j' =>
      simp only [equityRecords, List.getElem?_cons_succ, List.take_succ_cons,
        List.foldl_cons]
      exact ih (trade_step fees b bar) j'

/-- C1 counterexample: under `exScheduleFlat` a BUY entry at bar 1 records
equity 100000 — the pre-transition valuation — while the valuation of the
post-transition state at the bar's closing price is 90000 (the 10% entry
fee has been paid), so recorded equity is not the post-transition value. -/
theorem equity_records_pre_transition_counterexample :
    (run exBacktester exBars).equity_curve = [100000] ∧
    (run exBacktester exBars).position = POSITION.BUY ∧
    (run exBacktester exBars).cash + (run exBacktester exBars).shares * 100 = 90000 ∧
    ((100000 : ℚ) ≠ 90000) := by
  have hfee : _get_trade_fees exBacktester 100000 TradeSide.BUY
      (some "2025-01-02T00:00:00") none = 10000 := by
    have heff : _get_effective_fees exScheduleFlat "base" AssetType.STOCKS =
        Except.ok [("regulatory", JVal.obj [("etc_rate", JVal.num (1/10))])] := rfl
    have hcalc : calculate_commission_fees exScheduleFlat "base" 100000 TradeSide.BUY
        AssetType.STOCKS (some "2025-01-02T00:00:00") none =
        Except.ok (FeeResult.fees (_calculate_stocks_fees 100000 TradeSide.BUY
          HoldingType.UNKNOWN [("regulatory", JVal.obj [("etc_rate", JVal.num (1/10))])])) := by
      rw [calculate_commission_fees, if_neg (by norm_num : ¬ ((100000:ℚ) ≤ 0)), heff]
      rfl
    have hcomp : (stocks_fee_components 100000 TradeSide.BUY HoldingType.UNKNOWN
        [("regulatory", JVal.obj [("etc_rate", JVal.num (1/10))])]).total_fees = 10000 := by
      set R : JDict := [("regulatory", JVal.obj [("etc_rate", JVal.num (1/10))])] with hR
      have e1 : dGetNum (jgetObj R "broker") ("rate_" ++ Nat.repr TradeSide.BUY.value) = 0 := rfl
      have e2 : dGetNum (jgetObj R "broker") ("const_" ++ Nat.repr TradeSide.BUY.value) = 0 := rfl
      have e3 : dGetNumOpt (jgetObj R "broker") ("cap_" ++ Nat.repr TradeSide.BUY.value) = none := rfl
      have e4 : dGetNum (jgetObj R "regulatory") "etc_rate" = 1/10 := rfl
      have e5 : dGetNum (jgetObj R "regulatory") "sebi_rate" = 0 := rfl
      have e6 : dGetNum (jgetObj R "regulatory") "stamp_duty_rate" = 0 := rfl
      have e7 : dGetNum (jgetObj R "regulatory") "gst_rate" = 0 := rfl
      simp only [stocks_fee_components, e1, e2, e3, e4, e5, e6, e7]
      norm_num
      simp
    simp only [_get_trade_fees, exBacktester, hcalc, _calculate_stocks_fees]
    rw [hcomp]
    norm_num [round2, round_half_even]
  have hstep : trade_step (_get_trade_fees exBacktester) (_reset_state exBacktester)
      ⟨"2025-01-02T00:00:00", 100, SIGNAL.BUY_ENTRY⟩ =
      { exBacktester with
          cash := 0
          shares := 900
          position := POSITION.BUY
          trades := [{ entry_date := "2025-01-02T00:00:00"
                       entry_price := 100
                       ttype := "Long"
                       shares := 900
                       fees_entry := 10000
                       texit := none }] } := by
    rw [trade_step]
    simp only [_reset_state, exBacktester] at hfee ⊢
    rw [hfee]
    norm_num [Backtester.mk.injEq, Trade.mk.injEq]
  have hrw : run exBacktester exBars =
      runWith (_get_trade_fees exBacktester) exBacktester exBars := rfl
  refine ⟨?_, ?_, ?_, by norm_num⟩
  · rw [hrw, runWith_equity_curve]
    show equityRecords _ _ [⟨"2025-01-02T00:00:00", 100, SIGNAL.BUY_ENTRY⟩] = _
    rw [equityRecords, equityRecords]
    simp [equity_at, _reset_state, exBacktester]
  · rw [hrw, runWith]
    rw [show (exBars.drop 1) = [⟨"2025-01-02T00:00:00", 100, SIGNAL.BUY_ENTRY⟩] from rfl]
    simp only [List.foldl_cons, List.foldl_nil, bar_step]
    rw [hstep]
  · rw [hrw, runWith]
    rw [show (exBars.drop 1) = [⟨"2025-01-02T00:00:00", 100, SIGNAL.BUY_ENTRY⟩] from rfl]
    simp only [List.foldl_cons, List.foldl_nil, bar_step]
    rw [hstep]
    norm_num

/-- C1 amended: for every bar `i ≥ 1`, the equity recorded for that bar is
the valuation rule applied to the account state *before* the bar's
transition (the state left by bars `1 .. i-1`) at the bar's closing price —
the loop body computes equity first and runs the trade logic afterwards. -/
theorem equity_records_pre_transition (b : Backtester) (bars : List Bar) (i : ℕ)
    (h1 : 1 ≤ i) (h2 : i < bars.length) :
    (run b bars).equity_curve[i - 1]? =
      (bars[i]?).map (fun bar => equity_at (preState b bars i) bar.close) := by
  have hrw : run b bars = runWith (_get_trade_fees b) b bars := rfl
  rw [hrw, runWith_equity_curve, equityRecords_get, List.getElem?_drop,
    show 1 + (i - 1) = i by omega, preState, List.drop_take]

/-- Witness for `equity_records_pre_transition` at bar 1 of the concrete
two-bar run. -/
theorem equity_records_pre_transition_witness :
    (run exBacktester exBars).equity_curve[0]? =
      (exBars[1]?).map (fun bar => equity_at (preState exBacktester exBars 1) bar.close) :=
  equity_records_pre_transition exBacktester exBars 1 (le_refl 1)
    (by simp [exBars])

/-- One trade-logic step preserves ledger well-formedness. -/
theorem trade_step_wf (fees : FeeFn) (b : Backtester) (bar : Bar)
    (hwf : TradesWF b) : TradesWF (trade_step fees b bar) := by
  obtain ⟨h1, h2⟩ := hwf
  simp only [trade_step]
  by_cases hpos : b.position = POSITION.NOT_HELD
  · rw [if_pos hpos]
    by_cases hb : bar.signal = SIGNAL.BUY_ENTRY
    · rw [if_pos hb]
      have hall : ∀ t ∈ b.trades, t.texit.isSome := h2 hpos
      split_ifs with hcap
      · refine ⟨?_, ?_⟩
        · intro t ht
          simp only [List.dropLast_concat] at ht
          exact hall t ht
        · intro hfalse
          simp at hfalse
      · exact ⟨h1, h2⟩
    · rw [if_neg hb]
      by_cases hs : bar.signal = SIGNAL.SELL_ENTRY
      · rw [if_pos hs]
        have hall : ∀ t ∈ b.trades, t.texit.isSome := h2 hpos
        refine ⟨?_, ?_⟩
        · intro t ht
          simp only [List.dropLast_concat] at ht
          exact hall t ht
        · intro hfalse
          simp at hfalse
      · rw [if_neg hs]
        exact ⟨h1, h2⟩
  · rw [if_neg hpos]
    by_cases hbuy : b.position = POSITION.BUY
    · rw [if_pos hbuy]
      by_cases hsig : bar.signal = SIGNAL.BUY_EXIT
      · rw [if_pos hsig]
        split
        · exact ⟨h1, h2⟩
        · rename_i last hlast
          by_cases hclosed : last.texit.isSome
          · rw [if_pos hclosed]
            exact ⟨h1, h2⟩
          · rw [if_neg hclosed]
            refine ⟨?_, ?_⟩
            · intro t ht
              simp only [List.dropLast_concat] at ht
              exact h1 t ht
            · intro _ t ht
              rw [List.mem_append] at ht
              rcases ht with h | h
              · exact h1 t h
              · simp only [List.mem_singleton] at h
                subst h
                simp
      · rw [if_neg hsig]
        exact ⟨h1, h2⟩
    · rw [if_neg hbuy]
      by_cases hsig : bar.signal = SIGNAL.SELL_EXIT
      · rw [if_pos hsig]
        split
        · exact ⟨h1, h2⟩
        · rename_i last hlast
          by_cases hclosed : last.texit.isSome
          · rw [if_pos hclosed]
            exact ⟨h1, h2⟩
          · rw [if_neg hclosed]
            refine ⟨?_, ?_⟩
            · intro t ht
              simp only [List.dropLast_concat] at ht
              exact h1 t ht
            · intro _ t ht
              rw [List.mem_append] at ht
              rcases ht with h | h
              · exact h1 t h
              · simp only [List.mem_singleton] at h
                subst h
                simp
      · rw [if_neg hsig]
        exact ⟨h1, h2⟩

/-- Ledger well-formedness is preserved by the whole loop. -/
theorem foldl_trade_step_wf (fees : FeeFn) :
    ∀ (l : List Bar) (b : Backtester), TradesWF b →
      TradesWF (l.foldl (trade_step fees) b) := by
  intro l
  induction l with
  | nil => intro b h; exact h
  | cons bar t ih =>
    intro b h
    simp only [List.foldl_cons]
    exact ih _ (trade_step_wf fees b bar h)

/-- A ledger whose every record but the last is closed has at most one open
record. -/
theorem openCount_le_one :
    ∀ ts : List Trade, (∀ t ∈ ts.dropLast, t.texit.isSome) → openCount ts ≤ 1 := by
  intro ts
  induction ts with
  | nil => intro _; simp [openCount]
  | cons t ts' ih =>
    intro h
    cases ts' with
    | nil =>
      simp only [openCount, List.filter]
      split <;> simp
    | cons u us =>
      have ht : t.texit.isSome := h t (by simp [List.dropLast_cons₂])
      have hrest : ∀ x ∈ (u :: us).dropLast, x.texit.isSome := by
        intro x hx
        exact h x (by simp [List.dropLast_cons₂, hx])
      have := ih hrest
      simp only [openCount, List.filter] at *
      have hnone : t.texit.isNone = false := by
        cases htx : t.texit
        · rw [htx] at ht; simp at ht
        · simp
      rw [hnone]
      exact this

/-- C5: during and after any simulation run (every prefix of the input is
itself a run), at most one ledger record lacks exit fields; and an exit
signal is a strict no-op whenever the ledger is empty or its most recent
record already has exit fields, so a duplicate exit never creates a second
close or modifies the closed record. -/
theorem single_open_trade_invariant :
    (∀ (b : Backtester) (bars : List Bar) (n : ℕ),
        openCount ((run b (bars.take n)).trades) ≤ 1) ∧
    (∀ (fees : FeeFn) (b : Backtester) (bar : Bar),
        bar.signal = SIGNAL.BUY_EXIT ∨ bar.signal = SIGNAL.SELL_EXIT →
        lastExitClosed b.trades = true →
        trade_step fees b bar = b) := by
  constructor
  · intro b bars n
    rw [show run b (bars.take n) = runWith (_get_trade_fees b) b (bars.take n) from rfl,
      runWith_trades]
    have hwf0 : TradesWF (_reset_state b) := by
      constructor
      · intro t ht; simp [_reset_state] at ht
      · intro _ t ht; simp [_reset_state] at ht
    have hwf := foldl_trade_step_wf (_get_trade_fees b) ((bars.take n).drop 1)
      (_reset_state b) hwf0
    exact openCount_le_one _ hwf.1
  · intro fees b bar hsig hclosed
    have hls : ∀ t, b.trades.getLast? = some t → t.texit.isSome = true := by
      intro t ht
      rw [lastExitClosed, ht] at hclosed
      exact hclosed
    have hnb : ¬ bar.signal = SIGNAL.BUY_ENTRY := by
      rcases hsig with hs | hs <;> rw [hs] <;> decide
    have hns : ¬ bar.signal = SIGNAL.SELL_ENTRY := by
      rcases hsig with hs | hs <;> rw [hs] <;> decide
    simp only [trade_step]
    by_cases hpos : b.position = POSITION.NOT_HELD
    · rw [if_pos hpos, if_neg hnb, if_neg hns]
    · rw [if_neg hpos]
      by_cases hbuy : b.position = POSITION.BUY
      · rw [if_pos hbuy]
        by_cases hsb : bar.signal = SIGNAL.BUY_EXIT
        · rw [if_pos hsb]
          split
          · rfl
          · rename_i last hlast
            rw [if_pos (hls last hlast)]
        · rw [if_neg hsb]
      · rw [if_neg hbuy]
        by_cases hss : bar.signal = SIGNAL.SELL_EXIT
        · rw [if_pos hss]
          split
          · rfl
          · rename_i last hlast
            rw [if_pos (hls last hlast)]
        · rw [if_neg hss]

/-- Witness for `single_open_trade_invariant`: the concrete two-bar run has
at most one open trade, and a BUY_EXIT on a freshly constructed object (no
trades at all) changes nothing. -/
theorem single_open_trade_invariant_witness :
    openCount ((run exBacktester (exBars.take 2)).trades) ≤ 1 ∧
    trade_step (fun _ _ _ _ => 0) exBacktester
      ⟨"2025-01-03T00:00:00", 100, SIGNAL.BUY_EXIT⟩ = exBacktester :=
  ⟨single_open_trade_invariant.1 exBacktester exBars 2,
   single_open_trade_invariant.2 (fun _ _ _ _ => 0) exBacktester
     ⟨"2025-01-03T00:00:00", 100, SIGNAL.BUY_EXIT⟩ (Or.inl rfl) rfl⟩

/-- C7: when every commission calculation for the object's broker and asset
reports a structured failure (an `error`-keyed result, as an unknown broker
key does), the simulator does not abort: the fee helper returns exactly 0
for every transaction and the whole run is the run with an all-zero fee
function — every trade still executes, with zero fees, and the rest of the
simulation proceeds unchanged. -/
theorem degraded_mode_zero_fee (b : Backtester) (bars : List Bar)
    (hfail : ∀ (p : ℚ) (side : TradeSide) (bd sd : Option String), ∃ msg,
        calculate_commission_fees b.master_schedule b.broker_key p side
          b.asset_type bd sd = Except.ok (FeeResult.err msg)) :
    (∀ (p : ℚ) (side : TradeSide) (bd sd : Option String) (msg : String),
        calculate_commission_fees b.master_schedule b.broker_key p side
          b.asset_type bd sd = Except.ok (FeeResult.err msg) →
        _get_trade_fees b p side bd sd = 0) ∧
    run b bars = runWith (fun _ _ _ _ => 0) b bars := by
  have hpt : ∀ (p : ℚ) (side : TradeSide) (bd sd : Option String) (msg : String),
      calculate_commission_fees b.master_schedule b.broker_key p side
        b.asset_type bd sd = Except.ok (FeeResult.err msg) →
      _get_trade_fees b p side bd sd = 0 := by
    intro p side bd sd msg hm
    rw [_get_trade_fees, hm]
  refine ⟨hpt, ?_⟩
  rw [run]
  congr 1
  funext p side bd sd
  obtain ⟨msg, hm⟩ := hfail p side bd sd
  exact hpt p side bd sd msg hm

/-- Witness for `degraded_mode_zero_fee`: a schedule with no brokers at all
makes every fee calculation fail, the fee helper returns 0, and the run
equals the zero-fee run. -/
theorem degraded_mode_zero_fee_witness :
    _get_trade_fees exBacktesterNoBroker 5 TradeSide.BUY none none = 0 ∧
    run exBacktesterNoBroker exBars =
      runWith (fun _ _ _ _ => 0) exBacktesterNoBroker exBars := by
  have h := degraded_mode_zero_fee exBacktesterNoBroker exBars ?hfail
  case hfail =>
    intro p side bd sd
    by_cases hp : p ≤ 0
    · exact ⟨"Principal value must be positive.",
        by rw [calculate_commission_fees, if_pos hp]⟩
    · exact ⟨"ValueError broker key not found: zerodha",
        by rw [calculate_commission_fees, if_neg hp]; rfl⟩
  refine ⟨h.1 5 TradeSide.BUY none none "ValueError broker key not found: zerodha" ?_, h.2⟩
  rw [calculate_commission_fees, if_neg (by norm_num : ¬ ((5:ℚ) ≤ 0))]
  rfl

/-- C6: with non-negative configured rates, constants and caps, the
computed brokerage is never negative, and the total transaction fee is
monotone non-decreasing in the principal: for positive `p1 ≤ p2` with the
same rates, side and holding type, the total fee at `p1` is at most the
total fee at `p2`. -/
theorem fee_monotone (rates : JDict) (trade_side : TradeSide)
    (holding_type : HoldingType) (p1 p2 : ℚ) (hp1 : 0 < p1) (h12 : p1 ≤ p2)
    (hrate : 0 ≤ dGetNum (jgetObj rates "broker") ("rate_" ++ Nat.repr trade_side.value))
    (hconst : 0 ≤ dGetNum (jgetObj rates "broker") ("const_" ++ Nat.repr trade_side.value))
    (hcap : 0 ≤ (dGetNumOpt (jgetObj rates "broker")
      ("cap_" ++ Nat.repr trade_side.value)).getD 0)
    (hetc : 0 ≤ dGetNum (jgetObj rates "regulatory") "etc_rate")
    (hsebi : 0 ≤ dGetNum (jgetObj rates "regulatory") "sebi_rate")
    (hstamp : 0 ≤ dGetNum (jgetObj rates "regulatory") "stamp_duty_rate")
    (hgst : 0 ≤ dGetNum (jgetObj rates "regulatory") "gst_rate")
    (hsttd : 0 ≤ dGetNum (jgetObj rates "regulatory") "stt_delivery")
    (hstti : 0 ≤ dGetNum (jgetObj rates "regulatory") "stt_intraday") :
    0 ≤ (stocks_fee_components p1 trade_side holding_type rates).brokerage ∧
    (stocks_fee_components p1 trade_side holding_type rates).total_fees ≤
      (stocks_fee_components p2 trade_side holding_type rates).total_fees := by
  simp only [stocks_fee_components]
  set r := dGetNum (jgetObj rates "broker") ("rate_" ++ Nat.repr trade_side.value) with hr
  set c := dGetNum (jgetObj rates "broker") ("const_" ++ Nat.repr trade_side.value) with hc
  set e := dGetNum (jgetObj rates "regulatory") "etc_rate" with he
  set sb := dGetNum (jgetObj rates "regulatory") "sebi_rate" with hsb
  set sd := dGetNum (jgetObj rates "regulatory") "stamp_duty_rate" with hsd
  set g := dGetNum (jgetObj rates "regulatory") "gst_rate" with hg
  set td := dGetNum (jgetObj rates "regulatory") "stt_delivery" with htd
  set ti := dGetNum (jgetObj rates "regulatory") "stt_intraday" with hti
  have hmax1 : (0:ℚ) ≤ max (p1 * r) c := le_trans hconst (le_max_right _ _)
  have hmax2 : (0:ℚ) ≤ max (p2 * r) c := le_trans hconst (le_max_right _ _)
  have hmaxm : max (p1 * r) c ≤ max (p2 * r) c :=
    max_le_max (mul_le_mul_of_nonneg_right h12 hrate) (le_refl c)
  have hem : p1 * e ≤ p2 * e := mul_le_mul_of_nonneg_right h12 hetc
  have hsbm : p1 * sb ≤ p2 * sb := mul_le_mul_of_nonneg_right h12 hsebi
  have hsm : (if trade_side = TradeSide.BUY then p1 * sd else 0) ≤
      (if trade_side = TradeSide.BUY then p2 * sd else 0) := by
    split_ifs
    · exact mul_le_mul_of_nonneg_right h12 hstamp
    · exact le_refl 0
  have hstm : (if holding_type = HoldingType.DELIVERY ∧ trade_side = TradeSide.SELL
        then p1 * td
        else if holding_type = HoldingType.INTRADAY then p1 * ti else 0) ≤
      (if holding_type = HoldingType.DELIVERY ∧ trade_side = TradeSide.SELL
        then p2 * td
        else if holding_type = HoldingType.INTRADAY then p2 * ti else 0) := by
    split_ifs
    · exact mul_le_mul_of_nonneg_right h12 hsttd
    · exact mul_le_mul_of_nonneg_right h12 hstti
    · exact le_refl 0
  cases hcapo : dGetNumOpt (jgetObj rates "broker")
      ("cap_" ++ Nat.repr trade_side.value) with
  | none =>
    have hgm : (max (p1 * r) c + p1 * e + p1 * sb) * g ≤
        (max (p2 * r) c + p2 * e + p2 * sb) * g :=
      mul_le_mul_of_nonneg_right (by linarith) hgst
    exact ⟨hmax1, by linarith⟩
  | some cap =>
    rw [hcapo] at hcap
    simp only [Option.getD_some] at hcap
    have hb1 : (0:ℚ) ≤ (if cap < max (p1 * r) c then cap else max (p1 * r) c) := by
      split_ifs
      · exact hcap
      · exact hmax1
    have hbm : (if cap < max (p1 * r) c then cap else max (p1 * r) c) ≤
        (if cap < max (p2 * r) c then cap else max (p2 * r) c) := by
      split_ifs with hA hB
      · exact le_refl cap
      · push_neg at hB; linarith
      · push_neg at hA; linarith
      · exact hmaxm
    have hgm : ((if cap < max (p1 * r) c then cap else max (p1 * r) c) + p1 * e + p1 * sb) * g ≤
        ((if cap < max (p2 * r) c then cap else max (p2 * r) c) + p2 * e + p2 * sb) * g :=
      mul_le_mul_of_nonneg_right (by linarith) hgst
    exact ⟨hb1, by linarith⟩

/-- Witness for `fee_monotone` over `exRates` at principals 1000 and 2000
for a delivery sell. -/
theorem fee_monotone_witness :
    0 ≤ (stocks_fee_components 1000 TradeSide.SELL HoldingType.DELIVERY exRates).brokerage ∧
    (stocks_fee_components 1000 TradeSide.SELL HoldingType.DELIVERY exRates).total_fees ≤
      (stocks_fee_components 2000 TradeSide.SELL HoldingType.DELIVERY exRates).total_fees :=
  fee_monotone exRates TradeSide.SELL HoldingType.DELIVERY 1000 2000
    (by norm_num) (by norm_num)
    (le_of_eq rfl) (le_of_eq rfl) (le_of_eq rfl)
    (by rw [show dGetNum (jgetObj exRates "regulatory") "etc_rate" = 1/1000 from rfl]; norm_num)
    (le_of_eq rfl)
    (le_of_eq rfl)
    (by rw [show dGetNum (jgetObj exRates "regulatory") "gst_rate" = 18/100 from rfl]; norm_num)
    (by rw [show dGetNum (jgetObj exRates "regulatory") "stt_delivery" = 1/1000 from rfl]; norm_num)
    (by rw [show dGetNum (jgetObj exRates "regulatory") "stt_intraday" = 1/4000 from rfl]; norm_num)
